import Mathlib

/-!
A verification development for the santamon detection sidecar.

The Go sources are shallowly embedded: pure helpers become Lean functions,
the BoltDB-backed stores become explicit state values threaded through the
processing functions, machine integers become Int/Nat, and Go time.Time
becomes an explicit seconds/nanoseconds pair in UTC.  The CEL expression
programs attached to compiled rules are modelled as boolean-valued
functions of the event (with Option Bool capturing evaluation errors and
non-boolean results, both of which the Go code skips over).
-/

set_option maxRecDepth 100000

namespace Santamon

/-! ## Go time model

Go time.Time is modelled as seconds plus nanoseconds since the Unix epoch,
in UTC (protobuf timestamppb AsTime always yields UTC).  A Go Duration is
an Int of nanoseconds.  The Go zero time is January 1, year 1, 00:00:00
UTC, which is -62135596800 in Unix seconds.
-/

/-- A Go time.Time value: Unix seconds plus nanoseconds, location UTC. -/
structure GoTime where
  sec : Int
  nsec : Int
deriving DecidableEq, Repr

/-- Unix seconds of the Go zero time (January 1, year 1, 00:00:00 UTC). -/
def goZeroSec : Int := -62135596800

/-- The Go zero time.Time value. -/
def goZeroTime : GoTime := ⟨goZeroSec, 0⟩

/-- Go time.Time.IsZero. -/
def GoTime.isZero (t : GoTime) : Bool := t.sec == goZeroSec && t.nsec == 0

/-- Go now.Sub(ts): the difference of two times as a Duration in
nanoseconds.  (Go saturates at the Int64 bounds; the embedding uses
unbounded Int, which agrees on all realistic times.) -/
def GoTime.sub (a b : GoTime) : Int :=
  (a.sec - b.sec) * 1000000000 + (a.nsec - b.nsec)

/-- Civil date of a day count relative to 1970-01-01 (standard
era-decomposition calendar algorithm, using floor division). -/
def civilFromDays (z0 : Int) : Int × Int × Int :=
  let z := z0 + 719468
  let era := z / 146097
  let doe := z % 146097
  let yoe := (doe - doe / 1460 + doe / 36524 - doe / 146096) / 365
  let y := yoe + era * 400
  let doy := doe - (365 * yoe + yoe / 4 - yoe / 100)
  let mp := (5 * doy + 2) / 153
  let d := doy - (153 * mp + 2) / 5 + 1
  let m := mp + (if mp < 10 then 3 else -9)
  (y + (if m ≤ 2 then 1 else 0), m, d)

/-- Day count relative to 1970-01-01 of a civil date (inverse of
civilFromDays). -/
def daysFromCivil (y0 m d : Int) : Int :=
  let y := y0 - (if m ≤ 2 then 1 else 0)
  let era := y / 400
  let yoe := y - era * 400
  let mp := (m + 9) % 12
  let doy := (153 * mp + 2) / 5 + d - 1
  let doe := yoe * 365 + yoe / 4 - yoe / 100 + doy
  era * 146097 + doe - 719468

/-- Left-pad a decimal rendering with zeros to a given width. -/
def padZeros (w : Nat) (s : String) : String :=
  if s.length ≥ w then s else String.mk (List.replicate (w - s.length) '0') ++ s

/-- Render a nonnegative Int, zero-padded to the given width. -/
def padNum (w : Nat) (n : Int) : String :=
  if n < 0 then "-" ++ padZeros w (toString (-n)) else padZeros w (toString n)

/-- Date-time core of a Go time rendering: "YYYY-MM-DD«sep»HH:MM:SS",
seconds granularity (no fractional part). -/
def formatDateTime (sec : Int) (sep : String) : String :=
  let days := sec / 86400
  let sod := sec % 86400
  let ymd := civilFromDays days
  padNum 4 ymd.1 ++ "-" ++ padNum 2 ymd.2.1 ++ "-" ++ padNum 2 ymd.2.2 ++ sep ++
    padNum 2 (sod / 3600) ++ ":" ++ padNum 2 (sod % 3600 / 60) ++ ":" ++ padNum 2 (sod % 60)

/-- Go ts.Format(time.RFC3339) for a UTC time.  The RFC3339 layout
"2006-01-02T15:04:05Z07:00" carries no fractional seconds, so the
rendering depends on the seconds field alone; the UTC offset renders
as "Z". -/
def formatRFC3339 (t : GoTime) : String :=
  formatDateTime t.sec "T" ++ "Z"

/-- Trailing-zero trimming used by Go for optional fractional seconds. -/
def trimTrailingZeros (s : String) : String :=
  String.mk (s.data.reverse.dropWhile (· = '0')).reverse

/-- Go time.Time.String() for a UTC time without monotonic clock reading:
layout "2006-01-02 15:04:05.999999999 +0000 UTC" (fraction omitted when
zero, trailing zeros trimmed). -/
def goTimeString (t : GoTime) : String :=
  let frac := if t.nsec == 0 then "" else "." ++ trimTrailingZeros (padZeros 9 (toString t.nsec.toNat))
  formatDateTime t.sec " " ++ frac ++ " +0000 UTC"

/-! ## RFC3339 parsing

Go time.Parse with the RFC3339 / RFC3339Nano layouts, for the strings the
correlation window test accepts: "YYYY-MM-DDTHH:MM:SS[.fraction](Z|±HH:MM)".
Go accepts an optional fractional-seconds run after the seconds for both
layouts, and validates the calendar fields (month, day-in-month including
leap years, hour, minute, second). -/

/-- Decimal digit value of a character, if it is a digit. -/
def digitVal (c : Char) : Option Nat :=
  if '0' ≤ c ∧ c ≤ '9' then some (c.toNat - 48) else none

/-- Consume one expected character. -/
def expectCh (c : Char) : List Char → Option (List Char)
  | x :: rest => if x = c then some rest else none
  | [] => none

/-- Consume exactly k digits, accumulating their value. -/
def parseDigits : Nat → Nat → List Char → Option (Nat × List Char)
  | 0, acc, cs => some (acc, cs)
  | k + 1, acc, c :: rest =>
    match digitVal c with
    | some d => parseDigits k (acc * 10 + d) rest
    | none => none
  | _ + 1, _, [] => none

/-- Consume a maximal run of digits. -/
def takeDigits : List Char → List Nat × List Char
  | c :: rest =>
    match digitVal c with
    | some d =>
      let p := takeDigits rest
      (d :: p.1, p.2)
    | none => ([], c :: rest)
  | [] => ([], [])

/-- Nanoseconds denoted by a fractional-seconds digit run (Go keeps the
first nine digits). -/
def fracToNanos (ds : List Nat) : Nat :=
  let ds9 := ds.take 9
  (ds9.foldl (fun a d => a * 10 + d) 0) * 10 ^ (9 - ds9.length)

/-- Optional fractional seconds: a dot followed by at least one digit. -/
def parseFrac : List Char → Option (Nat × List Char)
  | '.' :: rest =>
    let p := takeDigits rest
    if p.1 = [] then none else some (fracToNanos p.1, p.2)
  | cs => some (0, cs)

/-- UTC offset: "Z" or "±HH:MM", in seconds. -/
def parseOffset : List Char → Option (Int × List Char)
  | 'Z' :: rest => some (0, rest)
  | '+' :: rest =>
    match parseDigits 2 0 rest with
    | some (hh, cs) =>
      match expectCh ':' cs with
      | some cs =>
        match parseDigits 2 0 cs with
        | some (mm, cs) => some ((hh * 3600 + mm * 60 : Nat), cs)
        | none => none
      | none => none
    | none => none
  | '-' :: rest =>
    match parseDigits 2 0 rest with
    | some (hh, cs) =>
      match expectCh ':' cs with
      | some cs =>
        match parseDigits 2 0 cs with
        | some (mm, cs) => some (-((hh * 3600 + mm * 60 : Nat) : Int), cs)
        | none => none
      | none => none
    | none => none
  | _ => none

/-- Gregorian leap year. -/
def isLeapYear (y : Int) : Bool := y % 4 == 0 && (y % 100 != 0 || y % 400 == 0)

/-- Days in a month of a given year. -/
def daysInMonth (y m : Int) : Int :=
  if m = 2 then (if isLeapYear y then 29 else 28)
  else if m = 4 ∨ m = 6 ∨ m = 9 ∨ m = 11 then 30
  else 31

/-- Shared RFC3339 parser: Go time.Parse for both the RFC3339 and the
RFC3339Nano layouts accepts exactly this shape (the fraction is optional
in both). -/
def parseRFC3339core (s : String) : Option GoTime :=
  match parseDigits 4 0 s.data with
  | none => none
  | some (y, cs) =>
  match expectCh '-' cs with
  | none => none
  | some cs =>
  match parseDigits 2 0 cs with
  | none => none
  | some (mo, cs) =>
  match expectCh '-' cs with
  | none => none
  | some cs =>
  match parseDigits 2 0 cs with
  | none => none
  | some (d, cs) =>
  match expectCh 'T' cs with
  | none => none
  | some cs =>
  match parseDigits 2 0 cs with
  | none => none
  | some (hh, cs) =>
  match expectCh ':' cs with
  | none => none
  | some cs =>
  match parseDigits 2 0 cs with
  | none => none
  | some (mi, cs) =>
  match expectCh ':' cs with
  | none => none
  | some cs =>
  match parseDigits 2 0 cs with
  | none => none
  | some (ss, cs) =>
  match parseFrac cs with
  | none => none
  | some (ns, cs) =>
  match parseOffset cs with
  | none => none
  | some (off, cs) =>
  if cs ≠ [] then none
  else if mo < 1 ∨ 12 < (mo : Int) ∨ d < 1 ∨ (d : Int) > daysInMonth y mo ∨
      hh > 23 ∨ mi > 59 ∨ ss > 59 then none
  else some ⟨daysFromCivil y mo d * 86400 + (hh * 3600 + mi * 60 + ss : Nat) - off, (ns : Int)⟩

/-- Go time.Parse(time.RFC3339Nano, s). -/
def parseRFC3339Nano (s : String) : Option GoTime := parseRFC3339core s

/-- Go time.Parse(time.RFC3339, s).  Go accepts fractional seconds even
when the layout has none, so this coincides with the Nano layout parse. -/
def parseRFC3339 (s : String) : Option GoTime := parseRFC3339core s

/-! ## Go value model

The dynamic values stored in an event map (the map produced by
events.ToMap plus events.BuildActivation): JSON-style strings, integral
numbers, booleans, nulls, nested maps and lists, and the time.Time values
BuildActivation inserts for event_time and processed_time.  Non-integral
float64 values are outside the model.  Maps and lists are mutual
inductives so every function on them is structural. -/

mutual
inductive GoVal where
  | null
  | str (s : String)
  | vint (n : Int)
  | vbool (b : Bool)
  | vtime (t : GoTime)
  | vlist (xs : GoValList)
  | vmap (m : GoValMap)
inductive GoValList where
  | nil
  | cons (v : GoVal) (rest : GoValList)
inductive GoValMap where
  | nil
  | cons (k : String) (v : GoVal) (rest : GoValMap)
end

/-- An event map: the Go map[string]any view of a telemetry record. -/
abbrev EventMap := GoValMap

/-- Keyed lookup in a Go map (keys are unique in a Go map; the first
binding wins here). -/
def GoValMap.lookup : GoValMap → String → Option GoVal
  | .nil, _ => none
  | .cons k v rest, key => if k = key then some v else rest.lookup key

/-- Go map indexing: a missing key yields the zero value nil. -/
def GoValMap.lookupOrNull (m : GoValMap) (key : String) : GoVal :=
  (m.lookup key).getD .null

/-- Ordered insertion for the key-sorted map rendering of Go fmt. -/
def insertByKey (p : String × String) : List (String × String) → List (String × String)
  | [] => [p]
  | q :: rest => if p.1 ≤ q.1 then p :: q :: rest else q :: insertByKey p rest

/-- Insertion sort by key for the map rendering of Go fmt (fmt prints map
entries in sorted key order). -/
def sortByKey : List (String × String) → List (String × String)
  | [] => []
  | p :: rest => insertByKey p (sortByKey rest)

mutual
/-- The events.toString conversion combined with the fmt "%v" rendering it
falls back to: strings unchanged, Stringers via String() (time.Time),
trimmed "%f" for numbers (integral here, so plain decimal), "%v"
otherwise. -/
def govToString : GoVal → String
  | .null => "<nil>"
  | .str s => s
  | .vint n => toString n
  | .vbool b => if b then "true" else "false"
  | .vtime t => goTimeString t
  | .vlist xs => "[" ++ String.intercalate " " (govListStrings xs) ++ "]"
  | .vmap m =>
    "map[" ++ String.intercalate " " ((sortByKey (govMapPairs m)).map (fun p => p.1 ++ ":" ++ p.2)) ++ "]"
def govListStrings : GoValList → List String
  | .nil => []
  | .cons v rest => govToString v :: govListStrings rest
def govMapPairs : GoValMap → List (String × String)
  | .nil => []
  | .cons k v rest => (k, govToString v) :: govMapPairs rest
end

/-- Character-list test that pre is a leading segment of s (the
strings.HasPrefix check inside strings.TrimPrefix; ASCII separators make
the Go byte-wise test and this character-wise test agree). -/
def listLeads : List Char → List Char → Bool
  | p :: ps, c :: cs => p == c && listLeads ps cs
  | [], _ => true
  | _ :: _, [] => false

/-- Split a character list at every occurrence of sep (strings.Split for
a one-character separator). -/
def splitChars (sep : Char) : List Char → List (List Char)
  | [] => [[]]
  | c :: rest =>
    match splitChars sep rest with
    | [] => [[]]
    | g :: gs => if c = sep then [] :: g :: gs else (c :: g) :: gs

/-- The dotted-path split of events.ExtractField (strings.Split on "."). -/
def splitDotted (s : String) : List String := (splitChars '.' s.data).map String.mk

/-- The loop body of events.ExtractField: walk the remaining path parts,
returning "" as soon as the current value is nil or not a nested map, and
converting the final value to a string (nil converts to ""). -/
def extractFieldGo : GoVal → List String → String
  | current, [] =>
    match current with
    | .null => ""
    | v => govToString v
  | current, part :: rest =>
    match current with
    | .vmap obj => extractFieldGo (obj.lookupOrNull part) rest
    | _ => ""

/-- events.ExtractField: walk a dotted path within the event map and
return the value as a string. -/
def ExtractField (event : EventMap) (field : String) : String :=
  extractFieldGo (.vmap event) (splitDotted field)

/-- strings.TrimPrefix(field, "event."): the Go code strips a leading
"event." from configured field paths before map extraction. -/
def trimEventDot (field : String) : String :=
  if listLeads "event.".data field.data then String.mk (field.data.drop 6) else field

/-- Declarative path walk: the value a dotted path reaches, or none when
an intermediate key is missing, nil, or not a nested map. -/
def walkPath : GoVal → List String → Option GoVal
  | v, [] => some v
  | .vmap obj, part :: rest =>
    match obj.lookup part with
    | some v => walkPath v rest
    | none => none
  | _, _ :: _ => none

/-- Rendering of an optional walked value: absent or nil yields "". -/
def renderOrEmpty : Option GoVal → String
  | none => ""
  | some .null => ""
  | some v => govToString v

/-! ## SHA-256

An executable SHA-256 over byte lists (bytes as Nat below 256, words as
Nat reduced mod 2^32), used by the signal ID hash of
internal/signals/signal.go. -/

/-- Reduce a Nat to a 32-bit word. -/
def m32 (n : Nat) : Nat := n % 4294967296

/-- Right rotation of a 32-bit word. -/
def rotr (n w : Nat) : Nat := m32 ((w >>> n) ||| (w <<< (32 - n)))

/-- The SHA-256 round constants. -/
def k256 : List Nat :=
  [1116352408, 1899447441, 3049323471, 3921009573, 961987163, 1508970993,
   2453635748, 2870763221, 3624381080, 310598401, 607225278, 1426881987,
   1925078388, 2162078206, 2614888103, 3248222580, 3835390401, 4022224774,
   264347078, 604807628, 770255983, 1249150122, 1555081692, 1996064986,
   2554220882, 2821834349, 2952996808, 3210313671, 3336571891, 3584528711,
   113926993, 338241895, 666307205, 773529912, 1294757372, 1396182291,
   1695183700, 1986661051, 2177026350, 2456956037, 2730485921, 2820302411,
   3259730800, 3345764771, 3516065817, 3600352804, 4094571909, 275423344,
   430227734, 506948616, 659060556, 883997877, 958139571, 1322822218,
   1537002063, 1747873779, 1955562222, 2024104815, 2227730452, 2361852424,
   2428436474, 2756734187, 3204031479, 3329325298]

/-- The SHA-256 initial hash state. -/
def sha256init : List Nat :=
  [1779033703, 3144134277, 1013904242, 2773480762,
   1359893119, 2600822924, 528734635, 1541459225]

/-- Big-endian 8-byte rendering of a length in bits. -/
def be64 (n : Nat) : List Nat :=
  [(n >>> 56) % 256, (n >>> 48) % 256, (n >>> 40) % 256, (n >>> 32) % 256,
   (n >>> 24) % 256, (n >>> 16) % 256, (n >>> 8) % 256, n % 256]

/-- SHA-256 padding: a 0x80 byte, zeros to 56 mod 64, and the bit length. -/
def padMessage (msg : List Nat) : List Nat :=
  let L := msg.length
  let zeros := (119 - (L % 64)) % 64
  msg ++ [0x80] ++ List.replicate zeros 0 ++ be64 (8 * L)

/-- Split a byte list into 64-byte blocks (fuel-driven so it reduces). -/
def toBlocksF : Nat → List Nat → List (List Nat)
  | 0, _ => []
  | _, [] => []
  | fuel + 1, l => l.take 64 :: toBlocksF fuel (l.drop 64)

/-- Split a byte list into 64-byte blocks. -/
def toBlocks (l : List Nat) : List (List Nat) := toBlocksF l.length l

/-- Big-endian 32-bit words of a block. -/
def toWords : List Nat → List Nat
  | b0 :: b1 :: b2 :: b3 :: rest => (((b0 * 256 + b1) * 256 + b2) * 256 + b3) :: toWords rest
  | _ => []

/-- Indexed word access in the message schedule. -/
def wGet (w : List Nat) (j : Nat) : Nat := w.getD j 0

/-- Extend the 16-word schedule to 64 words. -/
def extendSchedule : List Nat → Nat → List Nat
  | w, 0 => w
  | w, n + 1 =>
    let i := w.length
    let s0 := rotr 7 (wGet w (i - 15)) ^^^ rotr 18 (wGet w (i - 15)) ^^^ (wGet w (i - 15) >>> 3)
    let s1 := rotr 17 (wGet w (i - 2)) ^^^ rotr 19 (wGet w (i - 2)) ^^^ (wGet w (i - 2) >>> 10)
    extendSchedule (w ++ [m32 (wGet w (i - 16) + s0 + wGet w (i - 7) + s1)]) n

/-- One SHA-256 compression round on the eight-word working state. -/
def sha256Round (st : List Nat) (kw : Nat × Nat) : List Nat :=
  match st with
  | [a, b, c, d, e, f, g, h] =>
    let S1 := rotr 6 e ^^^ rotr 11 e ^^^ rotr 25 e
    let ch := (e &&& f) ^^^ ((e ^^^ 4294967295) &&& g)
    let temp1 := m32 (h + S1 + ch + kw.1 + kw.2)
    let S0 := rotr 2 a ^^^ rotr 13 a ^^^ rotr 22 a
    let maj := (a &&& b) ^^^ (a &&& c) ^^^ (b &&& c)
    let temp2 := m32 (S0 + maj)
    [m32 (temp1 + temp2), a, b, c, m32 (d + temp1), e, f, g]
  | other => other

/-- Compress one 64-byte block into the hash state. -/
def processBlock (hs : List Nat) (block : List Nat) : List Nat :=
  let ws := extendSchedule (toWords block) 48
  let st := (k256.zip ws).foldl sha256Round hs
  List.zipWith (fun h s => m32 (h + s)) hs st

/-- Big-endian bytes of a 32-bit word. -/
def be32 (n : Nat) : List Nat := [(n >>> 24) % 256, (n >>> 16) % 256, (n >>> 8) % 256, n % 256]

/-- SHA-256 digest (32 bytes) of a byte list. -/
def sha256 (msg : List Nat) : List Nat :=
  (((toBlocks (padMessage msg)).foldl processBlock sha256init).map be32).flatten

/-- Lowercase hex digit. -/
def hexDigitChar (n : Nat) : Char := if n < 10 then Char.ofNat (48 + n) else Char.ofNat (87 + n)

/-- Two-digit lowercase hex of a byte, as in Go fmt "%x". -/
def byteToHex (b : Nat) : String := String.mk [hexDigitChar (b / 16), hexDigitChar (b % 16)]

/-- Lowercase hex of a byte list, as in Go fmt "%x". -/
def bytesToHex (bs : List Nat) : String := String.join (bs.map byteToHex)

/-- UTF-8 bytes of one character. -/
def utf8Char (c : Char) : List Nat :=
  let n := c.toNat
  if n < 0x80 then [n]
  else if n < 0x800 then [0xC0 ||| (n >>> 6), 0x80 ||| (n &&& 0x3F)]
  else if n < 0x10000 then
    [0xE0 ||| (n >>> 12), 0x80 ||| ((n >>> 6) &&& 0x3F), 0x80 ||| (n &&& 0x3F)]
  else
    [0xF0 ||| (n >>> 18), 0x80 ||| ((n >>> 12) &&& 0x3F), 0x80 ||| ((n >>> 6) &&& 0x3F),
     0x80 ||| (n &&& 0x3F)]

/-- UTF-8 bytes of a string, as Go []byte(s). -/
def utf8Bytes (s : String) : List Nat := (s.data.map utf8Char).flatten

/-! ## Rules (internal/rules)

The rule records of loader.go and the baseline rule file, and the
validation and duplicate-ID detection of RulesConfig.Validate and
LoadRulesDir.  File system walking and YAML parsing are abstracted: the
directory loader takes the ordered list of (path, parsed config) pairs
that WalkDir would feed it. -/

/-- A simple detection rule (loader.go Rule). -/
structure Rule where
  id : String
  title : String
  description : String
  expr : String
  severity : String
  tags : List String
  enabled : Bool
  extraContext : List String
  includeEvent : Bool
  includeProcessTree : Bool
deriving DecidableEq, Repr

/-- A time-window correlation rule (loader.go CorrelationRule); window is
a Go Duration in nanoseconds. -/
structure CorrelationRule where
  id : String
  title : String
  description : String
  expr : String
  window : Int
  groupBy : List String
  countDistinct : String
  threshold : Int
  severity : String
  tags : List String
  enabled : Bool
deriving DecidableEq, Repr

/-- A first-seen baseline rule (BaselineRule); learningPeriod is a Go
Duration in nanoseconds. -/
structure BaselineRule where
  id : String
  title : String
  description : String
  expr : String
  track : List String
  severity : String
  tags : List String
  enabled : Bool
  learningPeriod : Int
deriving DecidableEq, Repr

/-- The valid severity levels (severity.go ValidSeverities). -/
def validSeverities : List String := ["low", "medium", "high", "critical"]

/-- The index of the first empty string in a field list, if any (the
loops validating group_by and track fields). -/
def firstEmptyIdx : List String → Nat → Option Nat
  | [], _ => none
  | f :: rest, i => if f = "" then some i else firstEmptyIdx rest (i + 1)

/-- Rule.Validate. -/
def ruleValidate (r : Rule) : Except String Unit :=
  if r.id = "" then .error "rule ID is required"
  else if r.title = "" then .error "rule title is required"
  else if r.expr = "" then .error "rule expression is required"
  else if r.severity = "" then .error "rule severity is required"
  else if r.severity ∉ validSeverities then
    .error ("invalid severity: " ++ r.severity ++ " (must be low/medium/high/critical)")
  else .ok ()

/-- CorrelationRule.Validate. -/
def correlationValidate (cr : CorrelationRule) : Except String Unit :=
  if cr.id = "" then .error "correlation ID is required"
  else if cr.title = "" then .error "correlation title is required"
  else if cr.expr = "" then .error "correlation expression is required"
  else if cr.window = 0 then .error "correlation window is required"
  else if cr.threshold ≤ 0 then .error "correlation threshold must be greater than 0"
  else if cr.severity = "" then .error "correlation severity is required"
  else if cr.severity ∉ validSeverities then
    .error ("invalid severity: " ++ cr.severity ++ " (must be low/medium/high/critical)")
  else
    match firstEmptyIdx cr.groupBy 0 with
    | some i => .error ("group_by field " ++ toString i ++ " is empty")
    | none => .ok ()

/-- BaselineRule.Validate. -/
def baselineValidate (br : BaselineRule) : Except String Unit :=
  if br.id = "" then .error "baseline ID is required"
  else if br.title = "" then .error "baseline title is required"
  else if br.expr = "" then .error "baseline expression is required"
  else if br.track = [] then .error "baseline track fields (at least one required) is required"
  else if br.severity = "" then .error "baseline severity is required"
  else if br.severity ∉ validSeverities then
    .error ("invalid severity: " ++ br.severity ++ " (must be low/medium/high/critical)")
  else
    match firstEmptyIdx br.track 0 with
    | some i => .error ("track field " ++ toString i ++ " is empty")
    | none => .ok ()

/-- The rules.yaml top-level structure (RulesConfig). -/
structure RulesConfig where
  rules : List Rule
  correlations : List CorrelationRule
  baselines : List BaselineRule
deriving DecidableEq, Repr

/-- The simple-rules pass of RulesConfig.Validate: duplicate-ID check
against the seen set, then per-rule validation. -/
def checkSimpleRules : List Rule → List String → Except String (List String)
  | [], seen => .ok seen
  | r :: rest, seen =>
    if r.id ∈ seen then .error ("duplicate rule ID: " ++ r.id)
    else
      match ruleValidate r with
      | .error e => .error ("invalid rule " ++ r.id ++ ": " ++ e)
      | .ok _ => checkSimpleRules rest (r.id :: seen)

/-- The correlation pass of RulesConfig.Validate. -/
def checkCorrelations : List CorrelationRule → List String → Except String (List String)
  | [], seen => .ok seen
  | c :: rest, seen =>
    if c.id ∈ seen then
      .error ("duplicate rule ID: " ++ c.id ++ " (conflicts with existing rule)")
    else
      match correlationValidate c with
      | .error e => .error ("invalid correlation rule " ++ c.id ++ ": " ++ e)
      | .ok _ => checkCorrelations rest (c.id :: seen)

/-- The baseline pass of RulesConfig.Validate. -/
def checkBaselines : List BaselineRule → List String → Except String (List String)
  | [], seen => .ok seen
  | b :: rest, seen =>
    if b.id ∈ seen then
      .error ("duplicate rule ID: " ++ b.id ++ " (conflicts with existing rule)")
    else
      match baselineValidate b with
      | .error e => .error ("invalid baseline rule " ++ b.id ++ ": " ++ e)
      | .ok _ => checkBaselines rest (b.id :: seen)

/-- RulesConfig.Validate: one shared seen set across the three sections. -/
def rcValidate (rc : RulesConfig) : Except String Unit :=
  match checkSimpleRules rc.rules [] with
  | .error e => .error e
  | .ok seen =>
    match checkCorrelations rc.correlations seen with
    | .error e => .error e
    | .ok seen =>
      match checkBaselines rc.baselines seen with
      | .error e => .error e
      | .ok _ => .ok ()

/-- Errors of the directory loader; duplicateID carries the item kind
("rule", "correlation" or "baseline"), the duplicated ID and the two
source files. -/
inductive DirLoadError where
  | duplicateID (kind : String) (id f1 f2 : String)
  | invalidMerged (msg : String)
deriving DecidableEq, Repr

/-- The fmt.Errorf message of each directory-loader error. -/
def DirLoadError.render : DirLoadError → String
  | .duplicateID kind id f1 f2 =>
    "duplicate " ++ kind ++ " ID " ++ id ++ ": found in both " ++ f1 ++ " and " ++ f2
  | .invalidMerged msg => "invalid merged rules configuration: " ++ msg

/-- First-match association lookup (the idToFile map of LoadRulesDir). -/
def lookupAssoc : List (String × String) → String → Option String
  | [], _ => none
  | (k, v) :: rest, key => if k = key then some v else lookupAssoc rest key

/-- Record the IDs of one section of one file in idToFile, failing on the
first ID that is already recorded (LoadRulesDir per-file check). -/
def recordIDs (kind path : String) : List String → List (String × String) →
    Except DirLoadError (List (String × String))
  | [], idToFile => .ok idToFile
  | id :: rest, idToFile =>
    match lookupAssoc idToFile id with
    | some existingFile => .error (.duplicateID kind id existingFile path)
    | none => recordIDs kind path rest ((id, path) :: idToFile)

/-- The WalkDir body of LoadRulesDir: per file, check rules then
correlations then baselines against idToFile and merge the sections. -/
def walkRulesDir : List (String × RulesConfig) → List (String × String) → RulesConfig →
    Except DirLoadError (RulesConfig × List (String × String))
  | [], idToFile, merged => .ok (merged, idToFile)
  | (path, cfg) :: rest, idToFile, merged =>
    match recordIDs "rule" path (cfg.rules.map Rule.id) idToFile with
    | .error e => .error e
    | .ok m1 =>
      match recordIDs "correlation" path (cfg.correlations.map CorrelationRule.id) m1 with
      | .error e => .error e
      | .ok m2 =>
        match recordIDs "baseline" path (cfg.baselines.map BaselineRule.id) m2 with
        | .error e => .error e
        | .ok m3 =>
          walkRulesDir rest m3
            ⟨merged.rules ++ cfg.rules, merged.correlations ++ cfg.correlations,
             merged.baselines ++ cfg.baselines⟩

/-- LoadRulesDir on the ordered (path, parsed config) list the directory
walk produces: merge with duplicate detection, then validate the merged
configuration. -/
def loadRulesDir (files : List (String × RulesConfig)) : Except DirLoadError RulesConfig :=
  match walkRulesDir files [] ⟨[], [], []⟩ with
  | .error e => .error e
  | .ok (merged, _) =>
    match rcValidate merged with
    | .error e => .error (.invalidMerged e)
    | .ok _ => .ok merged

/-- All item IDs of a configuration, across the three sections. -/
def configIDs (rc : RulesConfig) : List String :=
  rc.rules.map Rule.id ++ rc.correlations.map CorrelationRule.id ++
    rc.baselines.map BaselineRule.id

/-- All item IDs across an ordered file list. -/
def filesIDs (files : List (String × RulesConfig)) : List String :=
  (files.map (fun f => configIDs f.2)).flatten

/-! ## Correlation window manager (internal/correlation)

WindowManager.Process with the BoltDB window store made explicit.  The
compiled CEL program of a correlation rule is modelled as a function from
the event map to Option Bool: none stands for an evaluation error or a
non-boolean result, both of which Process skips with a warning. -/

/-- A compiled correlation rule: the rule plus its filter program. -/
structure CompiledCorrelation where
  rule : CorrelationRule
  eval : EventMap → Option Bool

/-- Modelled from the spec: the windows bucket of the state store
(internal/state is not in the source tree).  Spec 4.1: the store keeps
windows/rule_id/group_key as an ordered event list with operations
store_window_event, get_window_events and replace_window_events. -/
structure WindowStore where
  entries : List ((String × String) × List EventMap)

/-- Modelled from the spec: get_window_events(rule_id, group_key), the
ordered stored list (empty when the bucket is absent). -/
def getWindowEvents (st : WindowStore) (ruleID groupKey : String) : List EventMap :=
  ((st.entries.find? (fun e => e.1 = (ruleID, groupKey))).map Prod.snd).getD []

/-- Replace the bucket of a key in the backing list. -/
def setBucket : List ((String × String) × List EventMap) → String × String → List EventMap →
    List ((String × String) × List EventMap)
  | [], key, l => [(key, l)]
  | e :: rest, key, l => if e.1 = key then (key, l) :: rest else e :: setBucket rest key l

/-- Modelled from the spec: store_window_event appends the event to the
ordered list of its (rule_id, group_key) bucket. -/
def storeWindowEvent (st : WindowStore) (ruleID groupKey : String) (em : EventMap) : WindowStore :=
  ⟨setBucket st.entries (ruleID, groupKey) (getWindowEvents st ruleID groupKey ++ [em])⟩

/-- Modelled from the spec: replace_window_events overwrites the bucket
with the given list (the empty list standing for the nil that clears). -/
def replaceWindowEvents (st : WindowStore) (ruleID groupKey : String) (evts : List EventMap) :
    WindowStore :=
  ⟨setBucket st.entries (ruleID, groupKey) evts⟩

/-- A correlation window that exceeded its threshold (WindowMatch).  The
rule back-reference Go keeps for signal generation is dropped: the signal
generator reads only the fields present here. -/
structure WindowMatch where
  ruleID : String
  title : String
  severity : String
  tags : List String
  description : String
  count : Int
  events : List EventMap
  groupKey : String

/-- WindowManager.extractGroupKey: field=value segments joined by "|",
or "_global" when no group_by fields are configured. -/
def extractGroupKey (event : EventMap) (groupBy : List String) : String :=
  match groupBy with
  | [] => "_global"
  | _ =>
    String.intercalate "|"
      (groupBy.map (fun field =>
        let cleanField := trimEventDot field
        cleanField ++ "=" ++ ExtractField event cleanField))

/-- The seen-set loop body of WindowManager.countEvents: record a
non-empty extracted value not seen before (the Go map insert). -/
def countDistinctStep (cleanField : String) (seen : List String) (evt : EventMap) : List String :=
  let value := ExtractField evt cleanField
  if value ≠ "" ∧ value ∉ seen then seen ++ [value] else seen

/-- WindowManager.countEvents: distinct non-empty values of the
count_distinct field when one is configured (a seen-set loop), the plain
event count otherwise. -/
def countEvents (windowEvents : List EventMap) (rule : CorrelationRule) : Int :=
  if rule.countDistinct ≠ "" then
    ((windowEvents.foldl (countDistinctStep (trimEventDot rule.countDistinct))
        ([] : List String)).length : Int)
  else (windowEvents.length : Int)

/-- The withinWindow test of internal/correlation: a zero window admits
everything; otherwise a missing or nil event_time is outside the window,
a time.Time compares directly, a string is parsed as RFC3339Nano then
RFC3339 (unparseable strings are outside), and any other type is
outside. -/
def withinWindow (event : EventMap) (now : GoTime) (window : Int) : Bool :=
  if window == 0 then true
  else
    match event.lookup "event_time" with
    | none => false
    | some .null => false
    | some (.vtime t) => decide (now.sub t ≤ window)
    | some (.str s) =>
      match parseRFC3339Nano s with
      | some t => decide (now.sub t ≤ window)
      | none =>
        match parseRFC3339 s with
        | some t => decide (now.sub t ≤ window)
        | none => false
    | some _ => false

/-- The max_events truncation of Process: when the surviving list exceeds
a positive maxEvents, keep the newest maxEvents entries. -/
def truncateWindow (maxEvents : Int) (l : List EventMap) : List EventMap :=
  if maxEvents > 0 ∧ (l.length : Int) > maxEvents then l.drop (l.length - maxEvents.toNat) else l

/-- Accumulated result of WindowManager.Process: matches so far plus the
window store. -/
structure WMStep where
  matchList : List WindowMatch
  store : WindowStore

/-- The per-rule body of WindowManager.Process: evaluate the filter,
store the event, filter the stored list to the window, truncate to
max_events, count, and either emit a match and clear the bucket or
persist the filtered list back. -/
def wmProcessRule (maxEvents : Int) (now : GoTime) (em : EventMap) (acc : WMStep)
    (rule : CompiledCorrelation) : WMStep :=
  match rule.eval em with
  | none => acc
  | some false => acc
  | some true =>
    let groupKey := extractGroupKey em rule.rule.groupBy
    let st1 := storeWindowEvent acc.store rule.rule.id groupKey em
    let windowEvents := getWindowEvents st1 rule.rule.id groupKey
    let recentEvents :=
      truncateWindow maxEvents (windowEvents.filter (fun evt => withinWindow evt now rule.rule.window))
    let count := countEvents recentEvents rule.rule
    if count ≥ rule.rule.threshold then
      { matchList := acc.matchList ++
          [{ ruleID := rule.rule.id, title := rule.rule.title, severity := rule.rule.severity,
             tags := rule.rule.tags, description := rule.rule.description, count := count,
             events := recentEvents, groupKey := groupKey }],
        store := replaceWindowEvents st1 rule.rule.id groupKey [] }
    else
      { matchList := acc.matchList, store := replaceWindowEvents st1 rule.rule.id groupKey recentEvents }

/-- WindowManager.Process over one decoded event: fold the per-rule body
over the compiled correlation rules. -/
def wmProcess (maxEvents : Int) (now : GoTime) (st : WindowStore)
    (correlationRules : List CompiledCorrelation) (em : EventMap) : WMStep :=
  correlationRules.foldl (wmProcessRule maxEvents now em) ⟨[], st⟩

/-! ## Baseline tracker (internal/baseline)

Processor.Process with the first-seen bucket of the state store made
explicit.  The compiled CEL filter is modelled as for correlations, and
the typed message is represented by its event map together with its event
time (Process uses the message only through the filter, ToMap and
events.EventTime; the match keeps no other message content the theorems
read). -/

/-- A compiled baseline rule: the rule plus its filter program. -/
structure CompiledBaseline where
  rule : BaselineRule
  eval : EventMap → Option Bool

/-- Modelled from the spec: the first_seen bucket of the state store as
the set of (rule_id, pattern) keys already inserted (internal/state is
not in the source tree). -/
abbrev FirstSeenStore := List (String × String)

/-- Modelled from the spec: is_first_seen(rule_id, pattern), an atomic
test-and-set that returns true only on the insertion. -/
def isFirstSeen (st : FirstSeenStore) (ruleID pattern : String) : Bool × FirstSeenStore :=
  if (ruleID, pattern) ∈ st then (false, st) else (true, st ++ [(ruleID, pattern)])

/-- A baseline first-occurrence match (BaselineMatch).  The message
pointer Go keeps for context enrichment is dropped. -/
structure BaselineMatch where
  ruleID : String
  title : String
  severity : String
  tags : List String
  description : String
  pattern : String
  timestamp : GoTime
  inLearning : Bool

/-- Engine.IsInLearningPeriod: a zero learning period is never in
learning; otherwise compare the time since engine start. -/
def isInLearningPeriod (startTime now : GoTime) (r : BaselineRule) : Bool :=
  if r.learningPeriod == 0 then false else decide (now.sub startTime < r.learningPeriod)

/-- Processor.extractPattern: field=value segments of the track fields
joined by "|". -/
def extractPattern (event : EventMap) (trackFields : List String) : String :=
  String.intercalate "|"
    (trackFields.map (fun field =>
      let cleanField := trimEventDot field
      cleanField ++ "=" ++ ExtractField event cleanField))

/-- The per-rule body of Processor.Process: evaluate the filter, extract
the pattern, and emit a match exactly when the atomic first-seen check
inserts the pattern. -/
def bProcessRule (startTime now evTime : GoTime) (em : EventMap)
    (acc : List BaselineMatch × FirstSeenStore) (b : CompiledBaseline) :
    List BaselineMatch × FirstSeenStore :=
  match b.eval em with
  | none => acc
  | some false => acc
  | some true =>
    let pattern := extractPattern em b.rule.track
    let r := isFirstSeen acc.2 b.rule.id pattern
    if r.1 then
      (acc.1 ++
        [{ ruleID := b.rule.id, title := b.rule.title, severity := b.rule.severity,
           tags := b.rule.tags, description := b.rule.description, pattern := pattern,
           timestamp := evTime, inLearning := isInLearningPeriod startTime now b.rule }],
       r.2)
    else (acc.1, r.2)

/-- Processor.Process over one event: fold the per-rule body over the
compiled baseline rules. -/
def bProcess (startTime now evTime : GoTime) (em : EventMap) (baselines : List CompiledBaseline)
    (st : FirstSeenStore) : List BaselineMatch × FirstSeenStore :=
  baselines.foldl (bProcessRule startTime now evTime em) ([], st)

/-- A stream of Process calls sharing the state store: each element
carries the wall clock at processing time, the event time and the event
map. -/
def bRun (startTime : GoTime) (baselines : List CompiledBaseline) :
    List (GoTime × GoTime × EventMap) → FirstSeenStore → List BaselineMatch × FirstSeenStore
  | [], st => ([], st)
  | (now, evT, em) :: rest, st =>
    let r := bProcess startTime now evT em baselines st
    let r2 := bRun startTime baselines rest r.2
    (r.1 ++ r2.1, r2.2)

/-! ## Process lineage cache (internal/lineage)

The Store node map becomes an association list; Lineage becomes a
fuel-driven loop whose fuel is the (defaulted) depth cap, matching the
len(chain) < maxDepth loop condition. -/

/-- A process key within a boot session (lineage Key). -/
structure LKey where
  bootUUID : String
  pid : Int
  pidVersion : Int
deriving DecidableEq, Repr

/-- Key.IsZero. -/
def LKey.isZero (k : LKey) : Bool := k.bootUUID == "" && k.pid == 0 && k.pidVersion == 0

/-- A cached process node (lineage Node). -/
structure LNode where
  key : LKey
  parent : LKey
  responsible : LKey
  path : String
  user : String
  uid : Int
  group : String
  gid : Int
  sessionID : Int
  args : List String
  startTime : GoTime
  createdAt : GoTime
deriving DecidableEq, Repr

/-- The lineage Store: its node map as an association list, plus the
bound and TTL configuration (inert for the lineage walk). -/
structure LStore where
  nodes : List (LKey × LNode)
  maxEntries : Int
  ttl : Int

/-- Node map lookup (s.nodes[key]). -/
def lookupNode : List (LKey × LNode) → LKey → Option LNode
  | [], _ => none
  | (k, n) :: rest, key => if k = key then some n else lookupNode rest key

/-- The loop of Store.Lineage: append the current node, mark it seen,
then stop on a zero parent key, a missing parent, a seen-set hit, or
exhausted fuel (the depth cap). -/
def lineageLoop (nodes : List (LKey × LNode)) :
    Nat → LNode → List LKey → List LNode → List LNode
  | 0, _, _, chain => chain
  | fuel + 1, current, seen, chain =>
    if current.parent.isZero then chain ++ [current]
    else
      match lookupNode nodes current.parent with
      | none => chain ++ [current]
      | some next =>
        if next.key ∈ current.key :: seen then chain ++ [current]
        else lineageLoop nodes fuel next (current.key :: seen) (chain ++ [current])

/-- Store.Lineage: default a non-positive depth cap to 8, return the
empty chain on an empty store or an unknown key, and otherwise walk
parent links. -/
def lineage (s : LStore) (key : LKey) (maxDepth : Int) : List LNode :=
  let md := if maxDepth ≤ 0 then (8 : Int) else maxDepth
  if s.nodes.isEmpty then []
  else
    match lookupNode s.nodes key with
    | none => []
    | some start => lineageLoop s.nodes md.toNat start [] []

/-! ## Signal generator (internal/signals)

The telemetry message is modelled with exactly the payload the target
accessors of internal/events read: the execution target executable (path
and hash), the file_access target path and the xprotect detected path.
Every other event variant, and an unset event, hits the accessors default
branches and is collapsed into one constructor.  The signal Context map is
built from enrichment machinery (protojson event maps, lineage
serialization) that no claim reads, and is left out of the Signal record;
all remaining fields are modelled.  time.Now() at signal generation
becomes an explicit now argument. -/

/-- Protobuf Hash message (the hash string). -/
structure PbHash where
  hash : String
deriving DecidableEq, Repr

/-- Protobuf FileInfo: path and optional hash. -/
structure PbFileInfo where
  path : String
  hash : Option PbHash
deriving DecidableEq, Repr

/-- Protobuf ProcessInfo, restricted to the executable field the target
accessors read. -/
structure PbProcessInfo where
  executable : Option PbFileInfo
deriving DecidableEq, Repr

/-- Protobuf Execution, restricted to its target. -/
structure PbExecution where
  target : Option PbProcessInfo
deriving DecidableEq, Repr

/-- Protobuf FileAccess target (path). -/
structure PbFileAccessTarget where
  path : String
deriving DecidableEq, Repr

/-- Protobuf FileAccess, restricted to its target. -/
structure PbFileAccess where
  target : Option PbFileAccessTarget
deriving DecidableEq, Repr

/-- Protobuf XProtect detection (detected path). -/
structure PbXprotectDetected where
  detectedPath : String
deriving DecidableEq, Repr

/-- Protobuf XProtect, restricted to its detection. -/
structure PbXprotect where
  detected : Option PbXprotectDetected
deriving DecidableEq, Repr

/-- The SantaMessage event union, collapsed to the variants the target
accessors distinguish; otherEvent covers every other variant and an
unset event. -/
inductive PbEvent where
  | execution (e : PbExecution)
  | fileAccess (f : PbFileAccess)
  | xprotect (x : PbXprotect)
  | otherEvent
deriving DecidableEq, Repr

/-- A telemetry message, restricted to its event union. -/
structure SantaMessage where
  event : PbEvent
deriving DecidableEq, Repr

/-- events.TargetSHA256: the execution target executable hash when every
link is present, "" otherwise (FileAccess targets carry no hash). -/
def TargetSHA256 (msg : SantaMessage) : String :=
  match msg.event with
  | .execution e =>
    match e.target with
    | some target =>
      match target.executable with
      | some exe =>
        match exe.hash with
        | some h => h.hash
        | none => ""
      | none => ""
    | none => ""
  | _ => ""

/-- events.TargetPath: the execution target executable path, the
file_access target path, or the xprotect detected path. -/
def TargetPath (msg : SantaMessage) : String :=
  match msg.event with
  | .execution e =>
    match e.target with
    | some target =>
      match target.executable with
      | some exe => exe.path
      | none => ""
    | none => ""
  | .fileAccess f =>
    match f.target with
    | some tgt => tgt.path
    | none => ""
  | .xprotect x =>
    match x.detected with
    | some det => det.detectedPath
    | none => ""
  | .otherEvent => ""

/-- A simple-rule match (rules.Match). -/
structure RuleMatch where
  ruleID : String
  title : String
  severity : String
  tags : List String
  message : SantaMessage
  eventMap : EventMap
  timestamp : GoTime
  rule : Option Rule

/-- A detection signal (state.Signal, minus the Context map no claim
reads). -/
structure Signal where
  id : String
  ts : GoTime
  hostID : String
  ruleID : String
  ruleDescription : String
  status : String
  severity : String
  title : String
  tags : List String

/-- The signal Generator; the lineage store it carries only feeds the
omitted Context map. -/
structure Generator where
  hostID : String

/-- Generator.generateSignalID: hex of the first 16 bytes of the SHA-256
of "ruleID|RFC3339(ts)|host|identifier". -/
def generateSignalID (ruleID : String) (ts : GoTime) (host identifier : String) : String :=
  let data := ruleID ++ "|" ++ formatRFC3339 ts ++ "|" ++ host ++ "|" ++ identifier
  bytesToHex ((sha256 (utf8Bytes data)).take 16)

/-- Generator.FromRuleMatch (now is the time.Now() fallback for a zero
match timestamp). -/
def fromRuleMatch (g : Generator) (now : GoTime) (m : RuleMatch) : Signal :=
  let ts := if m.timestamp.isZero then now else m.timestamp
  let tsha := TargetSHA256 m.message
  let targetIdentifier := if tsha = "" then TargetPath m.message else tsha
  { id := generateSignalID m.ruleID ts g.hostID targetIdentifier
    ts := ts
    hostID := g.hostID
    ruleID := m.ruleID
    ruleDescription :=
      match m.rule with
      | some r => r.description.trim
      | none => ""
    status := "open"
    severity := m.severity
    title := m.title
    tags := m.tags }

/-- Generator.FromWindowMatch: the signal timestamp and the hashed
timestamp are both the wall clock now, and the identifier is the group
key. -/
def fromWindowMatch (g : Generator) (now : GoTime) (m : WindowMatch) : Signal :=
  { id := generateSignalID m.ruleID now g.hostID m.groupKey
    ts := now
    hostID := g.hostID
    ruleID := m.ruleID
    ruleDescription := m.description.trim
    status := "open"
    severity := m.severity
    title := m.title
    tags := m.tags ++ ["correlation"] }

/-- Generator.FromBaselineMatch: the identifier is the pattern; now is
the time.Now() fallback for a zero match timestamp. -/
def fromBaselineMatch (g : Generator) (now : GoTime) (m : BaselineMatch) : Signal :=
  let ts := if m.timestamp.isZero then now else m.timestamp
  { id := generateSignalID m.ruleID ts g.hostID m.pattern
    ts := ts
    hostID := g.hostID
    ruleID := m.ruleID
    ruleDescription := m.description.trim
    status := "open"
    severity := m.severity
    title := m.title
    tags := m.tags ++ ["baseline"] }

/-! ## Spec-side characterizations and concrete inputs -/

/-- Whether a stored event map carries an event_time the window test can
interpret: a time.Time value, or a string one of the two RFC3339 parses
accepts. -/
def eventTimeUsable (event : EventMap) : Bool :=
  match event.lookup "event_time" with
  | some (.vtime _) => true
  | some (.str s) => (parseRFC3339Nano s).isSome || (parseRFC3339 s).isSome
  | _ => false

/-- A concrete correlation rule for instantiating the window theorems:
5-minute window, threshold 3, global grouping, always-true filter. -/
def sampleCorrelation : CompiledCorrelation :=
  ⟨⟨"SM-COR-001", "Credential store sweep", "three credential stores", "kind equality",
    300000000000, [], "", 3, "critical", [], true⟩, fun _ => some true⟩

/-- A concrete baseline rule for instantiating the baseline theorems:
always-true filter, one tracked field. -/
def sampleBaseline : CompiledBaseline :=
  ⟨⟨"SM-BASE-001", "First unsigned binary", "first time", "kind equality",
    ["execution.target.executable.path"], "high", [], true, 0⟩, fun _ => some true⟩

/-- A concrete event map carrying one execution path field. -/
def sampleEventMap : EventMap :=
  .cons "execution"
    (.vmap (.cons "target" (.vmap (.cons "executable" (.vmap (.cons "path"
      (.str "/usr/bin/curl") .nil)) .nil)) .nil)) .nil

/-- A concrete correlation window match for the signal ID theorems. -/
def sampleWindowMatch : WindowMatch :=
  ⟨"SM-COR-001", "Credential store sweep", "critical", [], "", 3, [], "_global"⟩

/-- A concrete simple-rule match with a non-zero timestamp. -/
def sampleRuleMatch : RuleMatch :=
  ⟨"SM-014", "curl spawn", "high", [], ⟨.otherEvent⟩, .nil, ⟨1700000000, 5⟩, none⟩

/-- A concrete baseline match with a non-zero timestamp. -/
def sampleBaselineMatch : BaselineMatch :=
  ⟨"SM-BASE-001", "First unsigned binary", "high", [], "", "p=/usr/bin/curl",
   ⟨1700000000, 7⟩, false⟩

/-- A concrete lineage node whose key is non-zero and whose parent is the
zero key. -/
def sampleLNode : LNode :=
  ⟨⟨"boot-1", 42, 1⟩, ⟨"", 0, 0⟩, ⟨"", 0, 0⟩, "/bin/sh", "root", 0, "wheel", 0, 1, [],
   ⟨1700000000, 0⟩, ⟨1700000000, 0⟩⟩

/-- A lineage store holding just sampleLNode. -/
def sampleLStore : LStore := ⟨[(⟨"boot-1", 42, 1⟩, sampleLNode)], 50000, 3600000000000⟩

/-- The pattern sampleBaseline extracts from sampleEventMap. -/
def samplePattern : String := "execution.target.executable.path=/usr/bin/curl"

/-- A two-event stream repeating sampleEventMap. -/
def sampleStream : List (GoTime × GoTime × EventMap) :=
  [(⟨0, 0⟩, ⟨0, 0⟩, sampleEventMap), (⟨1, 0⟩, ⟨1, 0⟩, sampleEventMap)]

/-- A rules configuration with the same ID on a rule and a baseline. -/
def dupConfig : RulesConfig :=
  ⟨[⟨"SM-001", "t", "", "expr", "high", [], true, [], false, false⟩], [],
   [⟨"SM-001", "t2", "", "expr", ["f"], "low", [], true, 0⟩]⟩

/-- Two parsed rule files sharing one rule ID. -/
def dupFiles : List (String × RulesConfig) :=
  [("a.yaml", ⟨[⟨"SM-001", "t", "", "expr", "high", [], true, [], false, false⟩], [], []⟩),
   ("b.yaml", ⟨[⟨"SM-001", "t2", "", "expr2", "low", [], true, [], false, false⟩], [], []⟩)]

/-! ## Theorems -/

theorem extractFieldGo_walk : ∀ (parts : List String) (current : GoVal),
    extractFieldGo current parts = renderOrEmpty (walkPath current parts) := by
  intro parts
  induction parts with
  | nil => intro current; cases current <;> rfl
  | cons part rest ih =>
    intro current
    cases current with
    | vmap obj =>
      show extractFieldGo (obj.lookupOrNull part) rest =
        renderOrEmpty (walkPath (.vmap obj) (part :: rest))
      cases h : obj.lookup part with
      | some v => simp [walkPath, h, GoValMap.lookupOrNull, ih]
      | none =>
        simp only [walkPath, h, GoValMap.lookupOrNull, Option.getD_none]
        rw [ih]
        cases rest <;> rfl
    | null => rfl
    | str s => rfl
    | vint n => rfl
    | vbool b => rfl
    | vtime t => rfl
    | vlist xs => rfl

/-- C9: ExtractField is total (it is a Lean function) and walks the map
one dotted segment at a time; its result is the rendering of the value
the path reaches, and whenever an intermediate key is missing, nil, or
not a nested map (walkPath returns none), or the final value is nil, the
result is the empty string. -/
theorem extractField_total_default (event : EventMap) (field : String) :
    ExtractField event field = renderOrEmpty (walkPath (.vmap event) (splitDotted field)) :=
  extractFieldGo_walk _ _

/-- C8: for a rule with a non-zero window, an event map whose event_time
is missing, nil, a non-time non-string value, or a string neither
RFC3339Nano nor RFC3339 parsing accepts, is reported outside the window
and hence dropped from the surviving list. -/
theorem withinWindow_unusable_false (event : EventMap) (now : GoTime) (window : Int)
    (hw : window ≠ 0) (h : eventTimeUsable event = false) :
    withinWindow event now window = false := by
  unfold withinWindow
  unfold eventTimeUsable at h
  have hw2 : (window == 0) = false := by simpa using hw
  rw [hw2]
  simp only [Bool.false_eq_true, if_false]
  cases hl : event.lookup "event_time" with
  | none => rfl
  | some v =>
    rw [hl] at h
    cases v with
    | null => rfl
    | str s =>
      change ((parseRFC3339Nano s).isSome || (parseRFC3339 s).isSome) = false at h
      show (match parseRFC3339Nano s with
            | some t => decide (now.sub t ≤ window)
            | none =>
              match parseRFC3339 s with
              | some t => decide (now.sub t ≤ window)
              | none => false) = false
      cases hn : parseRFC3339Nano s with
      | some t => rw [hn] at h; simp at h
      | none =>
        cases hr : parseRFC3339 s with
        | some t => rw [hn, hr] at h; simp at h
        | none => simp [hn, hr]
    | vint n => rfl
    | vbool b => rfl
    | vtime t =>
      change true = false at h
      simp at h
    | vlist xs => rfl
    | vmap m => rfl

/-- Witness for C8 at a concrete input: a 5-minute window and an event
map whose event_time is an unparseable string. -/
theorem withinWindow_unusable_false_witness :
    (300000000000 : Int) ≠ 0 ∧
    eventTimeUsable (.cons "event_time" (.str "not-a-time") .nil) = false ∧
    withinWindow (.cons "event_time" (.str "not-a-time") .nil) ⟨0, 0⟩ 300000000000 = false :=
  ⟨by decide, by decide,
   withinWindow_unusable_false (.cons "event_time" (.str "not-a-time") .nil) ⟨0, 0⟩
     300000000000 (by decide) (by decide)⟩

/-- C10: the signal ID hashes the timestamp at RFC3339 second
granularity, so two timestamps with the same seconds field (sub-second
differences collapse) and the same rule, host and identifier produce the
identical signal ID. -/
theorem signalID_second_granularity (ruleID host identifier : String) (t₁ t₂ : GoTime)
    (h : t₁.sec = t₂.sec) :
    generateSignalID ruleID t₁ host identifier = generateSignalID ruleID t₂ host identifier := by
  unfold generateSignalID formatRFC3339
  rw [h]

/-- Witness for C10 at a concrete input: two timestamps in the same
second differing only in nanoseconds. -/
theorem signalID_second_granularity_witness :
    (GoTime.mk 1700000000 1).sec = (GoTime.mk 1700000000 999999999).sec ∧
    generateSignalID "SM-014" ⟨1700000000, 1⟩ "host-1" "/usr/bin/curl" =
      generateSignalID "SM-014" ⟨1700000000, 999999999⟩ "host-1" "/usr/bin/curl" :=
  ⟨rfl, signalID_second_granularity "SM-014" "host-1" "/usr/bin/curl" _ _ rfl⟩

/-- C5: every generated signal id is the hex of the first 16 bytes of the
SHA-256 of "rule_id|RFC3339(ts)|host_id|identifier" at the signal
timestamp, where the identifier of a simple-rule signal is the target
SHA-256 when non-empty and the target path otherwise, of a correlation
signal the group key, and of a baseline signal the pattern. -/
theorem signalID_hash_structure :
    (∀ (g : Generator) (now : GoTime) (m : RuleMatch),
      (fromRuleMatch g now m).id =
        generateSignalID m.ruleID (fromRuleMatch g now m).ts g.hostID
          (if TargetSHA256 m.message = "" then TargetPath m.message else TargetSHA256 m.message)) ∧
    (∀ (g : Generator) (now : GoTime) (m : WindowMatch),
      (fromWindowMatch g now m).id =
        generateSignalID m.ruleID (fromWindowMatch g now m).ts g.hostID m.groupKey) ∧
    (∀ (g : Generator) (now : GoTime) (m : BaselineMatch),
      (fromBaselineMatch g now m).id =
        generateSignalID m.ruleID (fromBaselineMatch g now m).ts g.hostID m.pattern) ∧
    (∀ (ruleID : String) (ts : GoTime) (host identifier : String),
      generateSignalID ruleID ts host identifier =
        bytesToHex ((sha256 (utf8Bytes
          (ruleID ++ "|" ++ formatRFC3339 ts ++ "|" ++ host ++ "|" ++ identifier))).take 16)) := by
  refine ⟨fun g now m => ?_, fun g now m => ?_, fun g now m => ?_, fun r t h i => rfl⟩
  · simp only [fromRuleMatch]
  · simp only [fromWindowMatch]
  · simp only [fromBaselineMatch]

/-- C3 (amended): signal IDs are a deterministic function of the match
data and the generation-time clock; two runs over the same stream agree
on the IDs of simple-rule and baseline signals whose match timestamp is
non-zero, whatever the clocks of the runs. -/
theorem signalID_run_deterministic (g : Generator) (now₁ now₂ : GoTime) (m : RuleMatch)
    (bm : BaselineMatch) (hm : m.timestamp.isZero = false)
    (hb : bm.timestamp.isZero = false) :
    (fromRuleMatch g now₁ m).id = (fromRuleMatch g now₂ m).id ∧
    (fromBaselineMatch g now₁ bm).id = (fromBaselineMatch g now₂ bm).id := by
  constructor
  · simp [fromRuleMatch, hm]
  · simp [fromBaselineMatch, hb]

/-- Witness for the amended C3 at a concrete input. -/
theorem signalID_run_deterministic_witness :
    sampleRuleMatch.timestamp.isZero = false ∧
    sampleBaselineMatch.timestamp.isZero = false ∧
    ((fromRuleMatch ⟨"host-1"⟩ ⟨0, 0⟩ sampleRuleMatch).id =
        (fromRuleMatch ⟨"host-1"⟩ ⟨1, 0⟩ sampleRuleMatch).id ∧
      (fromBaselineMatch ⟨"host-1"⟩ ⟨0, 0⟩ sampleBaselineMatch).id =
        (fromBaselineMatch ⟨"host-1"⟩ ⟨1, 0⟩ sampleBaselineMatch).id) :=
  ⟨by decide, by decide,
   signalID_run_deterministic ⟨"host-1"⟩ ⟨0, 0⟩ ⟨1, 0⟩ sampleRuleMatch sampleBaselineMatch
     (by decide) (by decide)⟩

set_option maxHeartbeats 4000000 in
/-- Counterexample to C3 as stated: FromWindowMatch hashes the wall clock
of the run into the correlation signal ID, so the same window match
processed at two different clock readings (here one second apart)
produces two different signal IDs. -/
theorem correlation_signalID_clock_dependent :
    (fromWindowMatch ⟨"host-1"⟩ ⟨0, 0⟩ sampleWindowMatch).id ≠
      (fromWindowMatch ⟨"host-1"⟩ ⟨1, 0⟩ sampleWindowMatch).id := by decide

theorem lineageLoop_spec (nodes : List (LKey × LNode)) :
    ∀ (fuel : Nat) (current : LNode) (seen : List LKey) (chain : List LNode),
      (chain.map LNode.key).Nodup → (∀ n ∈ chain, n.key ∈ seen) → current.key ∉ seen →
      (lineageLoop nodes fuel current seen chain).length ≤ chain.length + fuel ∧
      ((lineageLoop nodes fuel current seen chain).map LNode.key).Nodup := by
  intro fuel
  induction fuel with
  | zero =>
    intro current seen chain h1 _ _
    simp [lineageLoop, h1]
  | succ n ih =>
    intro current seen chain h1 h2 h3
    have hcN : ((chain ++ [current]).map LNode.key).Nodup := by
      rw [List.map_append]
      rw [List.nodup_append]
      refine ⟨h1, by simp, ?_⟩
      intro a ha
      simp only [List.map_cons, List.map_nil, List.mem_cons, List.not_mem_nil, or_false]
      intro hac
      rcases List.mem_map.mp ha with ⟨nd, hnd, hk⟩
      exact h3 (hac ▸ hk ▸ h2 nd hnd)
    have hlen : (chain ++ [current]).length = chain.length + 1 := by simp
    by_cases hz : current.parent.isZero
    · simp only [lineageLoop, hz, if_true]
      exact ⟨by simp, hcN⟩
    · simp only [lineageLoop, hz, Bool.false_eq_true, if_false]
      cases hlk : lookupNode nodes current.parent with
      | none => exact ⟨by simp, hcN⟩
      | some next =>
        by_cases hs : next.key ∈ current.key :: seen
        · simp only [hs, if_true]
          exact ⟨by simp, hcN⟩
        · simp only [hs, if_false]
          have := ih next (current.key :: seen) (chain ++ [current]) hcN
            (by
              intro nd hnd
              rcases List.mem_append.mp hnd with hmem | hmem
              · exact List.mem_cons_of_mem _ (h2 nd hmem)
              · simp only [List.mem_singleton] at hmem
                subst hmem
                exact List.mem_cons_self _ _)
            hs
          refine ⟨?_, this.2⟩
          calc (lineageLoop nodes n next (current.key :: seen) (chain ++ [current])).length
              ≤ (chain ++ [current]).length + n := this.1
            _ = chain.length + (n + 1) := by simp; omega

/-- C4 (amended): Store.Lineage always terminates (it is a total
function); the chain it returns never contains the same node key twice
(the seen-set stops cycles), and its length is at most the depth bound
when that bound is positive, and at most the default 8 that a
non-positive bound is replaced by. -/
theorem lineage_chain_bounded (s : LStore) (key : LKey) (maxDepth : Int) :
    ((lineage s key maxDepth).length : Int) ≤ (if maxDepth ≤ 0 then 8 else maxDepth) ∧
    ((lineage s key maxDepth).map LNode.key).Nodup := by
  unfold lineage
  by_cases he : s.nodes.isEmpty
  · simp only [he, if_true]
    constructor
    · simp only [List.length_nil, Nat.cast_zero]
      split <;> omega
    · simp
  · simp only [he, Bool.false_eq_true, if_false]
    cases hlk : lookupNode s.nodes key with
    | none =>
      constructor
      · simp only [List.length_nil, Nat.cast_zero]
        split <;> omega
      · simp
    | some start =>
      have hmd : (0 : Int) ≤ (if maxDepth ≤ 0 then (8 : Int) else maxDepth) := by
        split <;> omega
      have h := lineageLoop_spec s.nodes (if maxDepth ≤ 0 then (8 : Int) else maxDepth).toNat
        start [] [] (by simp) (by simp) (by simp)
      refine ⟨?_, h.2⟩
      have h1 := h.1
      simp only [List.length_nil, Nat.zero_add] at h1
      calc ((lineageLoop s.nodes (if maxDepth ≤ 0 then (8 : Int) else maxDepth).toNat
              start [] []).length : Int)
          ≤ ((if maxDepth ≤ 0 then (8 : Int) else maxDepth).toNat : Int) := by exact_mod_cast h1
        _ = (if maxDepth ≤ 0 then (8 : Int) else maxDepth) := Int.toNat_of_nonneg hmd

/-- Counterexample to C4 as stated: at the non-positive depth bound 0 the
code substitutes the default cap 8, and a store holding one node returns
a one-node chain, which exceeds the requested bound of 0 nodes. -/
theorem lineage_depth_zero_exceeds_bound :
    (lineage sampleLStore ⟨"boot-1", 42, 1⟩ 0).length = 1 ∧
    ¬ ((lineage sampleLStore ⟨"boot-1", 42, 1⟩ 0).length ≤ 0) := by
  constructor <;> decide

theorem countDistinctFold_spec (cf : String) :
    ∀ (l : List EventMap) (seen : List String), seen.Nodup →
      (l.foldl (countDistinctStep cf) seen).Nodup ∧
      (l.foldl (countDistinctStep cf) seen).toFinset =
        seen.toFinset ∪
          ((l.map (fun evt => ExtractField evt cf)).filter (fun v => v ≠ "")).toFinset := by
  intro l
  induction l with
  | nil =>
    intro seen h
    refine ⟨h, ?_⟩
    simp
  | cons evt rest ih =>
    intro seen h
    rw [List.foldl_cons]
    by_cases hv : ExtractField evt cf = ""
    · have hstep : countDistinctStep cf seen evt = seen := by
        unfold countDistinctStep
        simp [hv]
      rw [hstep]
      obtain ⟨hnd, hfin⟩ := ih seen h
      refine ⟨hnd, ?_⟩
      rw [hfin, List.map_cons, List.filter_cons]
      simp [hv]
    · by_cases hmem : ExtractField evt cf ∈ seen
      · have hstep : countDistinctStep cf seen evt = seen := by
          unfold countDistinctStep
          simp [hv, hmem]
        rw [hstep]
        obtain ⟨hnd, hfin⟩ := ih seen h
        refine ⟨hnd, ?_⟩
        rw [hfin, List.map_cons]
        have hfil : (ExtractField evt cf ::
              rest.map (fun evt => ExtractField evt cf)).filter (fun v => v ≠ "") =
            ExtractField evt cf ::
              (rest.map (fun evt => ExtractField evt cf)).filter (fun v => v ≠ "") := by
          simp [List.filter_cons, hv]
        rw [hfil, List.toFinset_cons]
        ext a
        simp only [Finset.mem_union, List.mem_toFinset, Finset.mem_insert]
        constructor
        · rintro (ha | ha)
          · exact Or.inl ha
          · exact Or.inr (Or.inr ha)
        · rintro (ha | ha | ha)
          · exact Or.inl ha
          · exact Or.inl (ha ▸ hmem)
          · exact Or.inr ha
      · have hstep : countDistinctStep cf seen evt = seen ++ [ExtractField evt cf] := by
          unfold countDistinctStep
          simp [hv, hmem]
        rw [hstep]
        have hnd2 : (seen ++ [ExtractField evt cf]).Nodup := by
          rw [List.nodup_append]
          refine ⟨h, by simp, ?_⟩
          intro a ha
          simp only [List.mem_singleton]
          intro hae
          exact hmem (hae ▸ ha)
        obtain ⟨hnd, hfin⟩ := ih _ hnd2
        refine ⟨hnd, ?_⟩
        rw [hfin, List.map_cons]
        have hfil : (ExtractField evt cf ::
              rest.map (fun evt => ExtractField evt cf)).filter (fun v => v ≠ "") =
            ExtractField evt cf ::
              (rest.map (fun evt => ExtractField evt cf)).filter (fun v => v ≠ "") := by
          simp [List.filter_cons, hv]
        rw [hfil]
        ext a
        simp only [Finset.mem_union, List.mem_toFinset, List.mem_append, List.mem_singleton,
          List.mem_cons]
        tauto

/-- C6: with count_distinct configured, countEvents returns the number of
distinct non-empty values the configured field extracts to across the
surviving window events (an absent field extracts to the empty string and
contributes no value); without it, countEvents returns the number of
surviving events. -/
theorem countEvents_distinct_values (windowEvents : List EventMap) (rule : CorrelationRule) :
    countEvents windowEvents rule =
      if rule.countDistinct ≠ "" then
        (((windowEvents.map (fun evt => ExtractField evt (trimEventDot rule.countDistinct))).filter
            (fun v => v ≠ "")).dedup.length : Int)
      else (windowEvents.length : Int) := by
  unfold countEvents
  by_cases hc : rule.countDistinct ≠ ""
  · rw [if_pos hc, if_pos hc]
    obtain ⟨hnd, hfin⟩ :=
      countDistinctFold_spec (trimEventDot rule.countDistinct) windowEvents [] (by simp)
    have h1 := List.toFinset_card_of_nodup hnd
    rw [hfin] at h1
    simp only [List.toFinset_nil, Finset.empty_union] at h1
    rw [List.card_toFinset] at h1
    exact_mod_cast h1.symm
  · rw [if_neg hc, if_neg hc]

theorem getBucket_setBucket (entries : List ((String × String) × List EventMap))
    (key : String × String) (l : List EventMap) :
    (((setBucket entries key l).find? (fun e => e.1 = key)).map Prod.snd).getD [] = l := by
  induction entries with
  | nil => simp [setBucket]
  | cons e rest ih =>
    unfold setBucket
    by_cases he : e.1 = key
    · simp [he]
    · rw [if_neg he]
      rw [List.find?_cons_of_neg _ (by simpa using he)]
      exact ih

theorem getWindowEvents_replace (st : WindowStore) (rid gk : String) (l : List EventMap) :
    getWindowEvents (replaceWindowEvents st rid gk l) rid gk = l :=
  getBucket_setBucket st.entries (rid, gk) l

theorem getWindowEvents_store (st : WindowStore) (rid gk : String) (em : EventMap) :
    getWindowEvents (storeWindowEvent st rid gk em) rid gk = getWindowEvents st rid gk ++ [em] :=
  getBucket_setBucket st.entries (rid, gk) _

/-- The list of events WindowManager.Process counts for one rule through
one event: the stored bucket with the event appended, filtered to the
window and truncated to max_events. -/
def wmSurvivors (maxEvents : Int) (now : GoTime) (st : WindowStore) (r : CompiledCorrelation)
    (em : EventMap) : List EventMap :=
  truncateWindow maxEvents
    ((getWindowEvents st r.rule.id (extractGroupKey em r.rule.groupBy) ++ [em]).filter
      (fun evt => withinWindow evt now r.rule.window))

theorem wmProcessRule_eq (maxEvents : Int) (now : GoTime) (em : EventMap) (acc : WMStep)
    (r : CompiledCorrelation) (hmatch : r.eval em = some true) :
    wmProcessRule maxEvents now em acc r =
      if countEvents (wmSurvivors maxEvents now acc.store r em) r.rule ≥ r.rule.threshold then
        ⟨acc.matchList ++
            [{ ruleID := r.rule.id, title := r.rule.title, severity := r.rule.severity,
               tags := r.rule.tags, description := r.rule.description,
               count := countEvents (wmSurvivors maxEvents now acc.store r em) r.rule,
               events := wmSurvivors maxEvents now acc.store r em,
               groupKey := extractGroupKey em r.rule.groupBy }],
          replaceWindowEvents
            (storeWindowEvent acc.store r.rule.id (extractGroupKey em r.rule.groupBy) em)
            r.rule.id (extractGroupKey em r.rule.groupBy) []⟩
      else
        ⟨acc.matchList,
          replaceWindowEvents
            (storeWindowEvent acc.store r.rule.id (extractGroupKey em r.rule.groupBy) em)
            r.rule.id (extractGroupKey em r.rule.groupBy)
            (wmSurvivors maxEvents now acc.store r em)⟩ := by
  unfold wmProcessRule
  rw [hmatch]
  dsimp only
  unfold wmSurvivors
  rw [getWindowEvents_store]

/-- C1: for a correlation rule whose filter accepts the event, Process
emits a WindowMatch exactly when countEvents over the surviving window
list (the stored bucket plus this event, window-filtered and truncated to
max_events) reaches the threshold; on a match the (rule_id, group_key)
bucket is left empty, and on no match the filtered list is persisted
back. -/
theorem wmProcess_threshold (maxEvents : Int) (now : GoTime) (st : WindowStore)
    (r : CompiledCorrelation) (em : EventMap) (hmatch : r.eval em = some true) :
    ((wmProcess maxEvents now st [r] em).matchList ≠ [] ↔
      countEvents (wmSurvivors maxEvents now st r em) r.rule ≥ r.rule.threshold) ∧
    (countEvents (wmSurvivors maxEvents now st r em) r.rule ≥ r.rule.threshold →
      (wmProcess maxEvents now st [r] em).matchList =
        [{ ruleID := r.rule.id, title := r.rule.title, severity := r.rule.severity,
           tags := r.rule.tags, description := r.rule.description,
           count := countEvents (wmSurvivors maxEvents now st r em) r.rule,
           events := wmSurvivors maxEvents now st r em,
           groupKey := extractGroupKey em r.rule.groupBy }] ∧
      getWindowEvents (wmProcess maxEvents now st [r] em).store r.rule.id
        (extractGroupKey em r.rule.groupBy) = []) ∧
    (¬ countEvents (wmSurvivors maxEvents now st r em) r.rule ≥ r.rule.threshold →
      (wmProcess maxEvents now st [r] em).matchList = [] ∧
      getWindowEvents (wmProcess maxEvents now st [r] em).store r.rule.id
        (extractGroupKey em r.rule.groupBy) = wmSurvivors maxEvents now st r em) := by
  have hrun : wmProcess maxEvents now st [r] em = wmProcessRule maxEvents now em ⟨[], st⟩ r := by
    unfold wmProcess
    rw [List.foldl_cons, List.foldl_nil]
  rw [hrun, wmProcessRule_eq maxEvents now em ⟨[], st⟩ r hmatch]
  by_cases hc : countEvents (wmSurvivors maxEvents now st r em) r.rule ≥ r.rule.threshold
  · rw [if_pos hc]
    refine ⟨?_, fun _ => ⟨by simp, getWindowEvents_replace _ _ _ _⟩, fun hnc => absurd hc hnc⟩
    simp [hc]
  · rw [if_neg hc]
    refine ⟨by simp [hc], fun hcc => absurd hcc hc,
      fun _ => ⟨rfl, getWindowEvents_replace _ _ _ _⟩⟩

/-- Witness for C1 at a concrete input: an always-true filter, an empty
store and one event; the single stored event is outside the 5-minute
window (no event_time), so the count stays below the threshold 3, no
match is emitted, and the filtered (empty) list is persisted. -/
theorem wmProcess_threshold_witness :
    sampleCorrelation.eval GoValMap.nil = some true ∧
    ¬ countEvents (wmSurvivors 0 ⟨0, 0⟩ ⟨[]⟩ sampleCorrelation GoValMap.nil)
        sampleCorrelation.rule ≥ sampleCorrelation.rule.threshold ∧
    ((wmProcess 0 ⟨0, 0⟩ ⟨[]⟩ [sampleCorrelation] GoValMap.nil).matchList = [] ∧
      getWindowEvents (wmProcess 0 ⟨0, 0⟩ ⟨[]⟩ [sampleCorrelation] GoValMap.nil).store
        sampleCorrelation.rule.id (extractGroupKey GoValMap.nil sampleCorrelation.rule.groupBy) =
        wmSurvivors 0 ⟨0, 0⟩ ⟨[]⟩ sampleCorrelation GoValMap.nil) :=
  ⟨rfl, by decide,
   (wmProcess_threshold 0 ⟨0, 0⟩ ⟨[]⟩ sampleCorrelation GoValMap.nil rfl).2.2 (by decide)⟩

theorem bProcess_single_new (startTime now evT : GoTime) (em : EventMap) (b : CompiledBaseline)
    (st : FirstSeenStore) (he : b.eval em = some true)
    (hnew : (b.rule.id, extractPattern em b.rule.track) ∉ st) :
    bProcess startTime now evT em [b] st =
      ([{ ruleID := b.rule.id, title := b.rule.title, severity := b.rule.severity,
          tags := b.rule.tags, description := b.rule.description,
          pattern := extractPattern em b.rule.track, timestamp := evT,
          inLearning := isInLearningPeriod startTime now b.rule }],
       st ++ [(b.rule.id, extractPattern em b.rule.track)]) := by
  unfold bProcess
  rw [List.foldl_cons, List.foldl_nil]
  unfold bProcessRule
  rw [he]
  unfold isFirstSeen
  dsimp only
  rw [if_neg hnew]
  rfl

theorem bProcess_single_seen (startTime now evT : GoTime) (em : EventMap) (b : CompiledBaseline)
    (st : FirstSeenStore) (he : b.eval em = some true)
    (hseen : (b.rule.id, extractPattern em b.rule.track) ∈ st) :
    bProcess startTime now evT em [b] st = ([], st) := by
  unfold bProcess
  rw [List.foldl_cons, List.foldl_nil]
  unfold bProcessRule
  rw [he]
  unfold isFirstSeen
  dsimp only
  rw [if_pos hseen]
  rfl

theorem bRun_same_pattern_seen (startTime : GoTime) (b : CompiledBaseline) (p : String) :
    ∀ (stream : List (GoTime × GoTime × EventMap)) (st : FirstSeenStore),
      (∀ x ∈ stream, b.eval x.2.2 = some true ∧ extractPattern x.2.2 b.rule.track = p) →
      (b.rule.id, p) ∈ st →
      bRun startTime [b] stream st = ([], st) := by
  intro stream
  induction stream with
  | nil => intro st _ _; rfl
  | cons x rest ih =>
    intro st hall hmem
    obtain ⟨xn, xe, xm⟩ := x
    obtain ⟨he, hp⟩ := hall (xn, xe, xm) (List.mem_cons_self _ _)
    unfold bRun
    dsimp only
    rw [bProcess_single_seen startTime xn xe xm b st he (hp ▸ hmem)]
    rw [ih st (fun y hy => hall y (List.mem_cons_of_mem _ hy)) hmem]
    rfl

/-- C2: over any stream of events that all pass a baseline rule filter
and extract one identical pattern, Process emits exactly one
BaselineMatch for (rule id, pattern) across the whole run when the
pattern starts unseen in the first-seen store; and any single event
whose pattern is not yet in the store yields exactly one additional
match. -/
theorem baseline_first_seen_once :
    (∀ (startTime : GoTime) (b : CompiledBaseline) (stream : List (GoTime × GoTime × EventMap))
        (st₀ : FirstSeenStore) (p : String),
      (∀ x ∈ stream, b.eval x.2.2 = some true ∧ extractPattern x.2.2 b.rule.track = p) →
      (b.rule.id, p) ∉ st₀ → stream ≠ [] →
      (bRun startTime [b] stream st₀).1.length = 1 ∧
      (∀ m ∈ (bRun startTime [b] stream st₀).1, m.ruleID = b.rule.id ∧ m.pattern = p)) ∧
    (∀ (startTime now evT : GoTime) (em : EventMap) (b : CompiledBaseline)
        (st : FirstSeenStore),
      b.eval em = some true → (b.rule.id, extractPattern em b.rule.track) ∉ st →
      (bProcess startTime now evT em [b] st).1.length = 1) := by
  constructor
  · intro startTime b stream st₀ p hall hnew hne
    cases stream with
    | nil => exact absurd rfl hne
    | cons x rest =>
      obtain ⟨xn, xe, xm⟩ := x
      obtain ⟨he, hp⟩ := hall (xn, xe, xm) (List.mem_cons_self _ _)
      have hstep := bProcess_single_new startTime xn xe xm b st₀ he (hp ▸ hnew)
      unfold bRun
      dsimp only
      rw [hstep]
      rw [bRun_same_pattern_seen startTime b p rest
        (st₀ ++ [(b.rule.id, extractPattern xm b.rule.track)])
        (fun y hy => hall y (List.mem_cons_of_mem _ hy))
        (by rw [hp]; exact List.mem_append_right _ (List.mem_singleton_self _))]
      constructor
      · simp
      · intro m hm
        simp only [List.append_nil, List.mem_singleton] at hm
        subst hm
        exact ⟨rfl, hp⟩
  · intro startTime now evT em b st he hnew
    rw [bProcess_single_new startTime now evT em b st he hnew]
    rfl

/-- Witness for C2 at a concrete input: two events with the same tracked
path processed against an empty first-seen store yield exactly one
baseline match. -/
theorem baseline_first_seen_once_witness :
    (∀ x ∈ sampleStream, sampleBaseline.eval x.2.2 = some true ∧
        extractPattern x.2.2 sampleBaseline.rule.track = samplePattern) ∧
    (sampleBaseline.rule.id, samplePattern) ∉ ([] : FirstSeenStore) ∧
    sampleStream ≠ [] ∧
    ((bRun ⟨0, 0⟩ [sampleBaseline] sampleStream []).1.length = 1 ∧
      (∀ m ∈ (bRun ⟨0, 0⟩ [sampleBaseline] sampleStream []).1,
        m.ruleID = sampleBaseline.rule.id ∧ m.pattern = samplePattern)) :=
  ⟨by decide, by decide, by unfold sampleStream; exact List.cons_ne_nil _ _,
   baseline_first_seen_once.1 ⟨0, 0⟩ sampleBaseline sampleStream [] samplePattern
     (by decide) (by decide) (by unfold sampleStream; exact List.cons_ne_nil _ _)⟩

theorem checkSimpleRules_ok_spec : ∀ (rs : List Rule) (seen out : List String),
    checkSimpleRules rs seen = .ok out →
    out = (rs.map Rule.id).reverse ++ seen ∧
    (seen.Nodup → ((rs.map Rule.id).reverse ++ seen).Nodup) := by
  intro rs
  induction rs with
  | nil =>
    intro seen out h
    unfold checkSimpleRules at h
    injection h with h
    subst h
    exact ⟨by simp, fun hn => by simpa⟩
  | cons r rest ih =>
    intro seen out h
    unfold checkSimpleRules at h
    by_cases hmem : r.id ∈ seen
    · rw [if_pos hmem] at h
      exact absurd h (by simp)
    · rw [if_neg hmem] at h
      cases hval : ruleValidate r with
      | error e =>
        rw [hval] at h
        exact absurd h (by simp)
      | ok u =>
        rw [hval] at h
        obtain ⟨ho, hn⟩ := ih (r.id :: seen) out h
        constructor
        · rw [ho]
          simp
        · intro hns
          have hnd := hn (by simp [hns, hmem])
          simpa [List.append_assoc] using hnd

theorem checkCorrelations_ok_spec : ∀ (cs : List CorrelationRule) (seen out : List String),
    checkCorrelations cs seen = .ok out →
    out = (cs.map CorrelationRule.id).reverse ++ seen ∧
    (seen.Nodup → ((cs.map CorrelationRule.id).reverse ++ seen).Nodup) := by
  intro cs
  induction cs with
  | nil =>
    intro seen out h
    unfold checkCorrelations at h
    injection h with h
    subst h
    exact ⟨by simp, fun hn => by simpa⟩
  | cons c rest ih =>
    intro seen out h
    unfold checkCorrelations at h
    by_cases hmem : c.id ∈ seen
    · rw [if_pos hmem] at h
      exact absurd h (by simp)
    · rw [if_neg hmem] at h
      cases hval : correlationValidate c with
      | error e =>
        rw [hval] at h
        exact absurd h (by simp)
      | ok u =>
        rw [hval] at h
        obtain ⟨ho, hn⟩ := ih (c.id :: seen) out h
        constructor
        · rw [ho]
          simp
        · intro hns
          have hnd := hn (by simp [hns, hmem])
          simpa [List.append_assoc] using hnd

theorem checkBaselines_ok_spec : ∀ (bs : List BaselineRule) (seen out : List String),
    checkBaselines bs seen = .ok out →
    out = (bs.map BaselineRule.id).reverse ++ seen ∧
    (seen.Nodup → ((bs.map BaselineRule.id).reverse ++ seen).Nodup) := by
  intro bs
  induction bs with
  | nil =>
    intro seen out h
    unfold checkBaselines at h
    injection h with h
    subst h
    exact ⟨by simp, fun hn => by simpa⟩
  | cons b rest ih =>
    intro seen out h
    unfold checkBaselines at h
    by_cases hmem : b.id ∈ seen
    · rw [if_pos hmem] at h
      exact absurd h (by simp)
    · rw [if_neg hmem] at h
      cases hval : baselineValidate b with
      | error e =>
        rw [hval] at h
        exact absurd h (by simp)
      | ok u =>
        rw [hval] at h
        obtain ⟨ho, hn⟩ := ih (b.id :: seen) out h
        constructor
        · rw [ho]
          simp
        · intro hns
          have hnd := hn (by simp [hns, hmem])
          simpa [List.append_assoc] using hnd

theorem rcValidate_ok_nodup (rc : RulesConfig) :
    rcValidate rc = .ok () → (configIDs rc).Nodup := by
  intro h
  unfold rcValidate at h
  cases h1 : checkSimpleRules rc.rules [] with
  | error e => rw [h1] at h; exact absurd h (by simp)
  | ok seen1 =>
    rw [h1] at h
    dsimp only at h
    cases h2 : checkCorrelations rc.correlations seen1 with
    | error e => rw [h2] at h; exact absurd h (by simp)
    | ok seen2 =>
      rw [h2] at h
      dsimp only at h
      cases h3 : checkBaselines rc.baselines seen2 with
      | error e => rw [h3] at h; exact absurd h (by simp)
      | ok seen3 =>
        obtain ⟨ho1, hn1⟩ := checkSimpleRules_ok_spec _ _ _ h1
        obtain ⟨ho2, hn2⟩ := checkCorrelations_ok_spec _ _ _ h2
        obtain ⟨ho3, hn3⟩ := checkBaselines_ok_spec _ _ _ h3
        have hs1 : seen1.Nodup := by rw [ho1]; exact hn1 (by simp)
        have hs2 : seen2.Nodup := by rw [ho2]; exact hn2 hs1
        have hs3 : seen3.Nodup := by rw [ho3]; exact hn3 hs2
        have hperm : seen3.Perm (configIDs rc) := by
          rw [ho3, ho2, ho1]
          unfold configIDs
          rw [List.perm_iff_count]
          intro a
          simp [List.count_append, List.count_reverse]
          omega
        exact hperm.nodup hs3

theorem lookupAssoc_none_not_mem : ∀ (m : List (String × String)) (id : String),
    lookupAssoc m id = none → id ∉ m.map Prod.fst := by
  intro m
  induction m with
  | nil => intro id _; simp
  | cons e rest ih =>
    intro id h
    unfold lookupAssoc at h
    by_cases he : e.1 = id
    · rw [if_pos he] at h; exact absurd h (by simp)
    · rw [if_neg he] at h
      simp only [List.map_cons, List.mem_cons]
      rintro (hh | hh)
      · exact he hh.symm
      · exact ih id h hh

theorem recordIDs_ok_spec (kind path : String) :
    ∀ (ids : List String) (m m2 : List (String × String)),
      recordIDs kind path ids m = .ok m2 →
      (m2.map Prod.fst).Perm (ids ++ m.map Prod.fst) ∧
      ((m.map Prod.fst).Nodup → (ids ++ m.map Prod.fst).Nodup) ∧
      (∀ id f, lookupAssoc m2 id = some f →
        lookupAssoc m id = some f ∨ (f = path ∧ id ∈ ids)) := by
  intro ids
  induction ids with
  | nil =>
    intro m m2 h
    unfold recordIDs at h
    injection h with h
    subst h
    exact ⟨by simp, fun hn => by simpa, fun id f hf => Or.inl hf⟩
  | cons id rest ih =>
    intro m m2 h
    unfold recordIDs at h
    cases hl : lookupAssoc m id with
    | some f => rw [hl] at h; exact absurd h (by simp)
    | none =>
      rw [hl] at h
      obtain ⟨hperm, hnd, hlook⟩ := ih ((id, path) :: m) m2 h
      have hfst : ((id, path) :: m).map Prod.fst = id :: m.map Prod.fst := by simp
      rw [hfst] at hperm hnd
      have hnotmem := lookupAssoc_none_not_mem m id hl
      refine ⟨?_, ?_, ?_⟩
      · exact hperm.trans List.perm_middle
      · intro hm
        have hthis := hnd (by simp [hm, hnotmem])
        simpa using List.perm_middle.nodup hthis
      · intro id2 f hf
        rcases hlook id2 f hf with hcase | hcase
        · unfold lookupAssoc at hcase
          by_cases hid : id = id2
          · rw [if_pos hid] at hcase
            injection hcase with hcase
            exact Or.inr ⟨hcase.symm, by simp [hid]⟩
          · rw [if_neg hid] at hcase
            exact Or.inl hcase
        · exact Or.inr ⟨hcase.1, List.mem_cons_of_mem _ hcase.2⟩

theorem recordIDs_error_spec (kind path : String) :
    ∀ (ids : List String) (m : List (String × String)) (e : DirLoadError),
      recordIDs kind path ids m = .error e →
      ∃ id f1, e = .duplicateID kind id f1 path ∧ id ∈ ids ∧
        (lookupAssoc m id = some f1 ∨ f1 = path) := by
  intro ids
  induction ids with
  | nil =>
    intro m e h
    unfold recordIDs at h
    exact absurd h (by simp)
  | cons id rest ih =>
    intro m e h
    unfold recordIDs at h
    cases hl : lookupAssoc m id with
    | some f =>
      rw [hl] at h
      injection h with h
      exact ⟨id, f, h.symm, List.mem_cons_self _ _, Or.inl hl⟩
    | none =>
      rw [hl] at h
      obtain ⟨id2, f1, he, hmem, hdisj⟩ := ih ((id, path) :: m) e h
      refine ⟨id2, f1, he, List.mem_cons_of_mem _ hmem, ?_⟩
      rcases hdisj with hcase | hcase
      · unfold lookupAssoc at hcase
        by_cases hid : id = id2
        · rw [if_pos hid] at hcase
          injection hcase with hcase
          exact Or.inr hcase.symm
        · rw [if_neg hid] at hcase
          exact Or.inl hcase
      · exact Or.inr hcase

theorem walkRulesDir_ok_nodup :
    ∀ (files : List (String × RulesConfig)) (m : List (String × String)) (merged : RulesConfig)
      (out : RulesConfig × List (String × String)),
      walkRulesDir files m merged = .ok out → (m.map Prod.fst).Nodup →
      (filesIDs files ++ m.map Prod.fst).Nodup := by
  intro files
  induction files with
  | nil =>
    intro m merged out _ hm
    simpa [filesIDs] using hm
  | cons x rest ih =>
    obtain ⟨path, cfg⟩ := x
    intro m merged out h hm
    unfold walkRulesDir at h
    cases h1 : recordIDs "rule" path (cfg.rules.map Rule.id) m with
    | error e => rw [h1] at h; exact absurd h (by simp)
    | ok m1 =>
      rw [h1] at h
      dsimp only at h
      cases h2 : recordIDs "correlation" path (cfg.correlations.map CorrelationRule.id) m1 with
      | error e => rw [h2] at h; exact absurd h (by simp)
      | ok m2 =>
        rw [h2] at h
        dsimp only at h
        cases h3 : recordIDs "baseline" path (cfg.baselines.map BaselineRule.id) m2 with
        | error e => rw [h3] at h; exact absurd h (by simp)
        | ok m3 =>
          rw [h3] at h
          dsimp only at h
          obtain ⟨p1, n1, _⟩ := recordIDs_ok_spec _ _ _ _ _ h1
          obtain ⟨p2, n2, _⟩ := recordIDs_ok_spec _ _ _ _ _ h2
          obtain ⟨p3, n3, _⟩ := recordIDs_ok_spec _ _ _ _ _ h3
          have hm1 : (m1.map Prod.fst).Nodup := (p1.symm).nodup (n1 hm)
          have hm2 : (m2.map Prod.fst).Nodup := (p2.symm).nodup (n2 hm1)
          have hm3 : (m3.map Prod.fst).Nodup := (p3.symm).nodup (n3 hm2)
          have hrest := ih m3 _ out h hm3
          have hperm : (filesIDs ((path, cfg) :: rest) ++ m.map Prod.fst).Perm
              (filesIDs rest ++ m3.map Prod.fst) := by
            rw [List.perm_iff_count]
            intro a
            have c3 := p3.count_eq a
            have c2 := p2.count_eq a
            have c1 := p1.count_eq a
            simp only [List.count_append] at c1 c2 c3 ⊢
            simp only [filesIDs, configIDs, List.map_cons, List.flatten_cons, List.count_append]
            omega
          exact hperm.symm.nodup hrest

theorem walkRulesDir_error_spec (F : List (String × RulesConfig)) :
    ∀ (files : List (String × RulesConfig)) (m : List (String × String)) (merged : RulesConfig)
      (e : DirLoadError),
      walkRulesDir files m merged = .error e →
      (∀ x ∈ files, x ∈ F) →
      (∀ id f, lookupAssoc m id = some f → ∃ cfg, (f, cfg) ∈ F ∧ id ∈ configIDs cfg) →
      ∃ kind id f1 f2 c1 c2, e = .duplicateID kind id f1 f2 ∧
        (f1, c1) ∈ F ∧ id ∈ configIDs c1 ∧ (f2, c2) ∈ F ∧ id ∈ configIDs c2 := by
  intro files
  induction files with
  | nil =>
    intro m merged e h _ _
    unfold walkRulesDir at h
    exact absurd h (by simp)
  | cons x rest ih =>
    obtain ⟨path, cfg⟩ := x
    intro m merged e h hsub hinv
    have hpf : (path, cfg) ∈ F := hsub _ (List.mem_cons_self _ _)
    unfold walkRulesDir at h
    cases h1 : recordIDs "rule" path (cfg.rules.map Rule.id) m with
    | error e1 =>
      rw [h1] at h
      dsimp only at h
      injection h with h
      subst h
      obtain ⟨id, f1, he, hid, hdisj⟩ := recordIDs_error_spec _ _ _ _ _ h1
      have hidc : id ∈ configIDs cfg := by
        unfold configIDs
        exact List.mem_append_left _ (List.mem_append_left _ hid)
      rcases hdisj with hcase | hcase
      · obtain ⟨c1, hc1, hidc1⟩ := hinv id f1 hcase
        exact ⟨"rule", id, f1, path, c1, cfg, he, hc1, hidc1, hpf, hidc⟩
      · exact ⟨"rule", id, path, path, cfg, cfg, hcase ▸ he, hpf, hidc, hpf, hidc⟩
    | ok m1 =>
      rw [h1] at h
      dsimp only at h
      obtain ⟨_, _, hlook1⟩ := recordIDs_ok_spec _ _ _ _ _ h1
      have hinv1 : ∀ id f, lookupAssoc m1 id = some f →
          ∃ c, (f, c) ∈ F ∧ id ∈ configIDs c := by
        intro id f hf
        rcases hlook1 id f hf with hcase | hcase
        · exact hinv id f hcase
        · refine ⟨cfg, hcase.1 ▸ hpf, ?_⟩
          unfold configIDs
          exact List.mem_append_left _ (List.mem_append_left _ hcase.2)
      cases h2 : recordIDs "correlation" path (cfg.correlations.map CorrelationRule.id) m1 with
      | error e2 =>
        rw [h2] at h
        dsimp only at h
        injection h with h
        subst h
        obtain ⟨id, f1, he, hid, hdisj⟩ := recordIDs_error_spec _ _ _ _ _ h2
        have hidc : id ∈ configIDs cfg := by
          unfold configIDs
          exact List.mem_append_left _ (List.mem_append_right _ hid)
        rcases hdisj with hcase | hcase
        · obtain ⟨c1, hc1, hidc1⟩ := hinv1 id f1 hcase
          exact ⟨"correlation", id, f1, path, c1, cfg, he, hc1, hidc1, hpf, hidc⟩
        · exact ⟨"correlation", id, path, path, cfg, cfg, hcase ▸ he, hpf, hidc, hpf, hidc⟩
      | ok m2 =>
        rw [h2] at h
        dsimp only at h
        obtain ⟨_, _, hlook2⟩ := recordIDs_ok_spec _ _ _ _ _ h2
        have hinv2 : ∀ id f, lookupAssoc m2 id = some f →
            ∃ c, (f, c) ∈ F ∧ id ∈ configIDs c := by
          intro id f hf
          rcases hlook2 id f hf with hcase | hcase
          · exact hinv1 id f hcase
          · refine ⟨cfg, hcase.1 ▸ hpf, ?_⟩
            unfold configIDs
            exact List.mem_append_left _ (List.mem_append_right _ hcase.2)
        cases h3 : recordIDs "baseline" path (cfg.baselines.map BaselineRule.id) m2 with
        | error e3 =>
          rw [h3] at h
          dsimp only at h
          injection h with h
          subst h
          obtain ⟨id, f1, he, hid, hdisj⟩ := recordIDs_error_spec _ _ _ _ _ h3
          have hidc : id ∈ configIDs cfg := by
            unfold configIDs
            exact List.mem_append_right _ hid
          rcases hdisj with hcase | hcase
          · obtain ⟨c1, hc1, hidc1⟩ := hinv2 id f1 hcase
            exact ⟨"baseline", id, f1, path, c1, cfg, he, hc1, hidc1, hpf, hidc⟩
          · exact ⟨"baseline", id, path, path, cfg, cfg, hcase ▸ he, hpf, hidc, hpf, hidc⟩
        | ok m3 =>
          rw [h3] at h
          dsimp only at h
          obtain ⟨_, _, hlook3⟩ := recordIDs_ok_spec _ _ _ _ _ h3
          have hinv3 : ∀ id f, lookupAssoc m3 id = some f →
              ∃ c, (f, c) ∈ F ∧ id ∈ configIDs c := by
            intro id f hf
            rcases hlook3 id f hf with hcase | hcase
            · exact hinv2 id f hcase
            · refine ⟨cfg, hcase.1 ▸ hpf, ?_⟩
              unfold configIDs
              exact List.mem_append_right _ hcase.2
          exact ih m3 _ e h (fun y hy => hsub y (List.mem_cons_of_mem _ hy)) hinv3

/-- C7: whenever the same ID appears on two items across the rules,
correlations and baselines sections, RulesConfig.Validate returns an
error (so loading from a single file fails and no rule set is produced),
and LoadRulesDir returns the duplicate-ID error whose message names both
source files containing the duplicated ID. -/
theorem duplicate_ids_fatal :
    (∀ rc : RulesConfig, ¬ (configIDs rc).Nodup → ∃ e, rcValidate rc = .error e) ∧
    (∀ files : List (String × RulesConfig), ¬ (filesIDs files).Nodup →
      ∃ kind id f1 f2 c1 c2, loadRulesDir files = .error (.duplicateID kind id f1 f2) ∧
        (f1, c1) ∈ files ∧ id ∈ configIDs c1 ∧ (f2, c2) ∈ files ∧ id ∈ configIDs c2 ∧
        (DirLoadError.duplicateID kind id f1 f2).render =
          "duplicate " ++ kind ++ " ID " ++ id ++ ": found in both " ++ f1 ++ " and " ++ f2) := by
  constructor
  · intro rc h
    cases hv : rcValidate rc with
    | ok u => cases u; exact absurd (rcValidate_ok_nodup rc hv) h
    | error e => exact ⟨e, rfl⟩
  · intro files h
    cases hw : walkRulesDir files [] ⟨[], [], []⟩ with
    | ok out =>
      have := walkRulesDir_ok_nodup files [] ⟨[], [], []⟩ out hw (by simp)
      rw [List.map_nil, List.append_nil] at this
      exact absurd this h
    | error e =>
      obtain ⟨kind, id, f1, f2, c1, c2, he, hm1, hi1, hm2, hi2⟩ :=
        walkRulesDir_error_spec files files [] ⟨[], [], []⟩ e hw (fun x hx => hx)
          (by intro id f hf; exact absurd hf (by simp [lookupAssoc]))
      subst he
      refine ⟨kind, id, f1, f2, c1, c2, ?_, hm1, hi1, hm2, hi2, rfl⟩
      unfold loadRulesDir
      rw [hw]

/-- Witness for C7 at concrete inputs: a configuration repeating one ID
across the rules and baselines sections, and a two-file directory
repeating one rule ID. -/
theorem duplicate_ids_fatal_witness :
    (¬ (configIDs dupConfig).Nodup ∧ ∃ e, rcValidate dupConfig = .error e) ∧
    (¬ (filesIDs dupFiles).Nodup ∧
      ∃ kind id f1 f2 c1 c2, loadRulesDir dupFiles = .error (.duplicateID kind id f1 f2) ∧
        (f1, c1) ∈ dupFiles ∧ id ∈ configIDs c1 ∧ (f2, c2) ∈ dupFiles ∧ id ∈ configIDs c2 ∧
        (DirLoadError.duplicateID kind id f1 f2).render =
          "duplicate " ++ kind ++ " ID " ++ id ++ ": found in both " ++ f1 ++ " and " ++ f2) :=
  ⟨⟨by decide, duplicate_ids_fatal.1 dupConfig (by decide)⟩,
   ⟨by decide, duplicate_ids_fatal.2 dupFiles (by decide)⟩⟩

end Santamon
